import Mathlib

/-!
Verification development for the session-booking date/time picker.

Each definition is a shallow embedding of a function of the TypeScript
source.  JS dates are modelled as a calendar-day index (local day) plus
milliseconds since local midnight; JS `Date` comparison is then
lexicographic.  Pixel quantities are rationals, since the source computes
with JS numbers.  Functions that `throw` are modelled with `Except`.
-/

/-- A JS `Date` in local time: `day` is the calendar-day index, `ms` the
milliseconds elapsed since local midnight of that day. -/
structure JsDate where
  day : ℤ
  ms : ℤ
deriving DecidableEq

/-- JS `<` on dates: strictly earlier instant, lexicographic on (day, ms). -/
def jsBefore (a b : JsDate) : Prop :=
  a.day < b.day ∨ (a.day = b.day ∧ a.ms < b.ms)

instance (a b : JsDate) : Decidable (jsBefore a b) := by
  unfold jsBefore
  infer_instance

/-- JS `date.setHours(h, m, 0, 0)`: keep the calendar day, replace the
time of day. -/
def setHoursMs (d : JsDate) (hours minutes : ℕ) : JsDate :=
  ⟨d.day, (hours : ℤ) * 3600000 + (minutes : ℤ) * 60000⟩

/-- date-fns `startOfDay`. -/
def startOfDay (d : JsDate) : JsDate := ⟨d.day, 0⟩

/-- date-fns `addDays`. -/
def addDays (d : JsDate) (n : ℤ) : JsDate := ⟨d.day + n, d.ms⟩

/-- `isSameDay` from `dateUtils.ts`: both dates non-null and on the same
local calendar day (the source compares year, month and day-of-month,
which in the day-index model is equality of the day index). -/
def isSameDayOpt : Option JsDate → Option JsDate → Bool
  | some a, some b => a.day == b.day
  | _, _ => false

/-- `useIsToday` from `useDateComparison.ts`: false for a null date, else
`isSameDay(date, new Date())`; `now` is the clock read. -/
def useIsToday (now : JsDate) (date : Option JsDate) : Bool :=
  isSameDayOpt date (some now)

/-- A bookable time slot, from `types/booking.ts`. -/
structure TimeSlot where
  hours : ℕ
  minutes : ℕ
  label : String
deriving DecidableEq

/-- Two-digit minute field of the `h:mm a` format. -/
def pad2 (n : ℕ) : String :=
  if n < 10 then "0" ++ toString n else toString n

/-- date-fns `format(date, "h:mm a")`: 12-hour clock with AM/PM. -/
def formatLabel (h m : ℕ) : String :=
  let h12 := if h % 12 = 0 then 12 else h % 12
  let ampm := if h < 12 then "AM" else "PM"
  toString h12 ++ ":" ++ pad2 m ++ " " ++ ampm

/-- The minutes emitted by the inner loop of `generateTimeSlots` for one
hour: `for (minute = 0; minute < 60; minute += interval)`, i.e. the
multiples of `interval` below 60, in loop order.  For `0 < i` these are
exactly `k * i` for `k ≤ 59 / i`. -/
def minuteSeq (i : ℕ) : List ℕ :=
  (List.range (59 / i + 1)).map (· * i)

/-- `generateTimeSlots` from `timeUtils.ts`.  Hour and interval parameters
are modelled as integers (the data model declares slot fields as
integers).  The guards are the three `throw` sites of the source; the ok
branch is the double loop over hours `[startHour, endHour)` and minutes
`0, i, 2i, … < 60`. -/
def generateTimeSlots (startHour endHour intervalMinutes : ℤ) :
    Except String (List TimeSlot) :=
  if startHour < 0 ∨ 24 ≤ startHour then
    .error "startHour must be between 0 and 23"
  else if endHour ≤ startHour ∨ 24 < endHour then
    .error "endHour must be greater than startHour and max 24"
  else if intervalMinutes ≤ 0 ∨ 60 < intervalMinutes then
    .error "intervalMinutes must be between 1 and 60"
  else
    .ok (((List.range (endHour - startHour).toNat).map
        (fun k => startHour.toNat + k)).flatMap
      (fun h => (minuteSeq intervalMinutes.toNat).map
        (fun m => ⟨h, m, formatLabel h m⟩)))

/-- `isTimeSlotInPast` from `timeUtils.ts`: copy the selected date, set
its time of day to the slot, compare with the clock.  The clock read
`new Date()` is the explicit parameter `now`. -/
def isTimeSlotInPast (now selectedDate : JsDate) (timeSlot : TimeSlot) : Bool :=
  decide (jsBefore (setHoursMs selectedDate timeSlot.hours timeSlot.minutes) now)

/-- `isTimeSlotSelected` from `timeUtils.ts`. -/
def isTimeSlotSelected (timeSlot : TimeSlot) (selectedTime : Option TimeSlot) : Bool :=
  match selectedTime with
  | none => false
  | some t => timeSlot.hours == t.hours && timeSlot.minutes == t.minutes

/-- The slot list produced by the default call `generateTimeSlots()`
(8:00 to 20:00, 15-minute interval). -/
def defaultSlots : List TimeSlot :=
  match generateTimeSlots 8 20 15 with
  | .ok l => l
  | .error _ => []

/-- `getDefaultDate` from `useBooking.ts`: today when some default slot is
still available today, otherwise tomorrow. -/
def getDefaultDate (now : JsDate) : JsDate :=
  let today := startOfDay now
  if defaultSlots.any (fun slot => !(isTimeSlotInPast now today slot)) then today
  else addDays today 1

/-- `BookingState` from `types/booking.ts`. -/
structure BookingState where
  selectedDate : Option JsDate
  selectedTime : Option TimeSlot
deriving DecidableEq

/-- The initial `useState` value of `useBooking`. -/
def initialBookingState (now : JsDate) : BookingState :=
  ⟨some (getDefaultDate now), none⟩

/-- `handleDateSelect` from `useBooking.ts`. -/
def handleDateSelect (date : JsDate) (prev : BookingState) : BookingState :=
  { prev with selectedDate := some date, selectedTime := none }

/-- `handleTimeSelect` from `useBooking.ts`. -/
def handleTimeSelect (time : TimeSlot) (prev : BookingState) : BookingState :=
  { prev with selectedTime := some time }

/-- A calendar date for the date-range generator. -/
structure CivilDate where
  year : ℤ
  month : ℤ
  day : ℤ
deriving DecidableEq

/-- Gregorian leap-year rule. -/
def isLeapYear (y : ℤ) : Bool :=
  (y % 4 == 0 && y % 100 != 0) || y % 400 == 0

/-- Length of a month. -/
def daysInMonth (y m : ℤ) : ℤ :=
  if m = 2 then (if isLeapYear y then 29 else 28)
  else if m = 4 ∨ m = 6 ∨ m = 9 ∨ m = 11 then 30
  else 31

/-- date-fns `addMonths`: advance the month, clamping the day-of-month to
the length of the target month. -/
def addMonthsCivil (d : CivilDate) (n : ℤ) : CivilDate :=
  let t := d.month - 1 + n
  let y := d.year + t.fdiv 12
  let m := t.emod 12 + 1
  ⟨y, m, min d.day (daysInMonth y m)⟩

/-- Day number of a civil date (days since 1970-01-01, standard civil
calendar formula); used to enumerate `eachDayOfInterval`. -/
def daysFromCivil (d : CivilDate) : ℤ :=
  let y := if d.month ≤ 2 then d.year - 1 else d.year
  let era := y.fdiv 400
  let yoe := y - era * 400
  let mp := (d.month + 9).emod 12
  let doy := (153 * mp + 2).fdiv 5 + d.day - 1
  let doe := yoe * 365 + yoe.fdiv 4 - yoe.fdiv 100 + doy
  era * 146097 + doe - 719468

/-- `generateDateRange` from `dateUtils.ts`: guard on `monthsAhead`, then
`eachDayOfInterval(today, addMonths(today, monthsAhead))`, returned as the
inclusive list of day numbers.  `today` (the clock read `startOfDay(new
Date())`) is the explicit second parameter. -/
def generateDateRange (monthsAhead : ℤ) (today : CivilDate) :
    Except String (List ℤ) :=
  if monthsAhead < 1 ∨ 12 < monthsAhead then
    .error "monthsAhead must be between 1 and 12"
  else
    let s := daysFromCivil today
    let e := daysFromCivil (addMonthsCivil today monthsAhead)
    .ok ((List.range (e - s + 1).toNat).map (fun k => s + k))

/-- Whether an `Except` computation returned normally. -/
def exceptOk {ε α : Type} : Except ε α → Bool
  | .ok _ => true
  | .error _ => false

/-- One size tier (`base` or `xl`) of `ScrollLayoutConfig`. -/
structure SizeTier where
  width : ℚ
  height : ℚ
  gap : ℚ
deriving DecidableEq

/-- A `{md, base}` table of `ScrollLayoutConfig` (reserved space, hint width). -/
structure BreakTable where
  md : ℚ
  base : ℚ
deriving DecidableEq

/-- `ScrollLayoutConfig` from `useHorizontalScrollLayout.ts`.  An absent
optional `hintWidth` is modelled by the zero table, matching the
`config.hintWidth?.md || 0` reads of the source. -/
structure ScrollLayoutConfig where
  base : SizeTier
  xl : SizeTier
  reservedSpace : BreakTable
  hintWidth : BreakTable
deriving DecidableEq

/-- The layout computed by `useResponsiveLayout.calculate`. -/
structure LayoutResult where
  itemWidth : ℚ
  itemHeight : ℚ
  gap : ℚ
  containerWidth : ℚ
deriving DecidableEq

/-- The size tier picked from `window.innerWidth`: `xl` at or above the
1920px breakpoint, else `base`. -/
def selectedTier (config : ScrollLayoutConfig) (innerWidth : ℚ) : SizeTier :=
  if 1920 ≤ innerWidth then config.xl else config.base

/-- The hint width picked for the breakpoint: `md` at or above 768px,
else `base`. -/
def selectedHint (config : ScrollLayoutConfig) (innerWidth : ℚ) : ℚ :=
  if 768 ≤ innerWidth then config.hintWidth.md else config.hintWidth.base

/-- The reserved space picked for the breakpoint. -/
def selectedReserved (config : ScrollLayoutConfig) (innerWidth : ℚ) : ℚ :=
  if 768 ≤ innerWidth then config.reservedSpace.md else config.reservedSpace.base

/-- The `calculate` closure of `useResponsiveLayout`: available space is
the wrapper width minus reserved space and hint; the item count is
`floor((space + gap + 1) / (width + gap))`, floored at 1; the container
width packs that many items plus the hint. -/
def calculateLayout (config : ScrollLayoutConfig) (innerWidth totalWidth : ℚ) :
    LayoutResult :=
  let current := selectedTier config innerWidth
  let currentHint := selectedHint config innerWidth
  let reserved := selectedReserved config innerWidth
  let spaceForList := totalWidth - reserved - currentHint
  let maxItems : ℤ := ⌊(spaceForList + current.gap + 1) / (current.width + current.gap)⌋
  let safeCount : ℤ := max 1 maxItems
  { itemWidth := current.width
    itemHeight := current.height
    gap := current.gap
    containerWidth := (safeCount : ℚ) * current.width + (safeCount - 1 : ℤ) * current.gap + currentHint }

/-- `TIME_CONFIG` from `TimeSelector.tsx` (layout part). -/
def timeSelectorConfig : ScrollLayoutConfig :=
  { base := ⟨83, 47, 8⟩
    xl := ⟨88, 48, 12⟩
    reservedSpace := ⟨70, 16⟩
    hintWidth := ⟨0, 20⟩ }

/-- Drag physics configuration of `useDragScroll` (defaults
`threshold = 5`, `multiplier = 1.5`). -/
structure DragConfig where
  threshold : ℚ
  multiplier : ℚ
deriving DecidableEq

/-- The mutable ref state of `useDragScroll` plus the `isDragging` React
state visible to the move handler. -/
structure DragState where
  isDown : Bool
  startX : ℚ
  scrollLeft : ℚ
  isDragging : Bool
deriving DecidableEq

/-- One `mousemove` event: the pointer x (already relative to the
container, `pageX - offsetLeft`) and the value `getMinScroll()` would
return at that moment (`none` when no boundary callback was supplied). -/
structure MouseMove where
  x : ℚ
  minScroll : Option ℚ
deriving DecidableEq

/-- `onMouseDown`: record the start x and the scroll offset at drag start. -/
def mouseDownState (x scrollLeft : ℚ) : DragState :=
  ⟨true, x, scrollLeft, false⟩

/-- The `Math.max(getMinScroll(), targetScroll)` clamp, applied only when
a boundary callback was supplied. -/
def clampToMin : Option ℚ → ℚ → ℚ
  | some m, v => max m v
  | none, v => v

/-- `onMouseMove`: returns the updated state and the offset written to
`container.scrollLeft`, if any.  The write fires when the drag is already
engaged or the move distance exceeds the threshold; `setIsDragging(true)`
becomes visible to later events. -/
def onMouseMove (dragConfig : DragConfig) (s : DragState) (e : MouseMove) :
    DragState × Option ℚ :=
  if !s.isDown then (s, none)
  else
    let distance := |e.x - s.startX|
    let walk := (e.x - s.startX) * dragConfig.multiplier
    if s.isDragging || decide (distance > dragConfig.threshold) then
      ({ s with isDragging := s.isDragging || decide (distance > dragConfig.threshold) },
        some (clampToMin e.minScroll (s.scrollLeft - walk)))
    else (s, none)

/-- All scroll-offset writes produced by a sequence of `mousemove`
events, each paired with the event that produced it. -/
def dragWrites (dragConfig : DragConfig) (s : DragState) :
    List MouseMove → List (MouseMove × ℚ)
  | [] => []
  | e :: rest =>
    let step := onMouseMove dragConfig s e
    (match step.2 with
      | some v => [(e, v)]
      | none => []) ++ dragWrites dragConfig step.1 rest

/-- Options of `useSnapScroll` (`scrollDuration`, default 800; the
`TimeSelector` passes 1000). -/
structure SnapConfig where
  scrollDuration : ℕ
deriving DecidableEq

/-- The coordinator state: the current animation token
(`currentAnimationId.current`), the container scroll offset, the CSS
snap flag (`scrollSnapType` not `none`), and the pending snap-restore
timer (tagged with the token of the animation that scheduled it). -/
structure SnapState where
  currentAnimationId : ℕ
  scrollLeft : ℚ
  snapEnabled : Bool
  snapRestoreTimer : Option ℕ
deriving DecidableEq

/-- The closure captured by one smooth animation: its token
(`Date.now()` at the call), the start offset, the target and the chosen
duration. -/
structure Anim where
  id : ℕ
  startOffset : ℚ
  target : ℚ
  duration : ℕ
deriving DecidableEq

/-- `easeInOutCubic` from `useSnapScroll.ts`. -/
def easeInOutCubic (t : ℚ) : ℚ :=
  if t < 1/2 then 4 * t ^ 3 else 1 - (-2 * t + 2) ^ 3 / 2

/-- The smooth branch of `scrollToFn`: cancel the pending snap-restore
timer, pick the duration (short travel under 500px gets 200ms), store
the token `now = Date.now()`, disable snap, and return the closure the
animation frames will run. -/
def smoothScrollTo (options : SnapConfig) (s : SnapState) (targetOffset : ℚ)
    (now : ℕ) : SnapState × Anim :=
  let cleared : SnapState := { s with snapRestoreTimer := none }
  let distance := |targetOffset - cleared.scrollLeft|
  let animationDuration := if distance < 500 then 200 else options.scrollDuration
  ({ cleared with currentAnimationId := now, snapEnabled := false },
    ⟨now, cleared.scrollLeft, targetOffset, animationDuration⟩)

/-- The non-smooth branch of `scrollToFn`: cancel the timer, disable
snap and jump to the target (snap is re-enabled on the next frame, see
`snapReenableFrame`). -/
def instantScrollTo (s : SnapState) (targetOffset : ℚ) : SnapState :=
  { s with snapRestoreTimer := none, snapEnabled := false, scrollLeft := targetOffset }

/-- The `requestAnimationFrame` callback of the non-smooth branch. -/
def snapReenableFrame (s : SnapState) : SnapState :=
  { s with snapEnabled := true }

/-- One `animateFrame` callback of the animation `a`, run at wall-clock
time `now`: a no-op when a newer call has replaced the token; otherwise
write the eased interpolation, and on completion write the exact target
and schedule the snap-restore timer. -/
def animFrame (a : Anim) (now : ℕ) (s : SnapState) : SnapState :=
  if s.currentAnimationId ≠ a.id then s
  else if min (((now - a.id : ℕ) : ℚ) / (a.duration : ℚ)) 1 < 1 then
    { s with scrollLeft := a.startOffset + (a.target - a.startOffset) *
        easeInOutCubic (min (((now - a.id : ℕ) : ℚ) / (a.duration : ℚ)) 1) }
  else { s with scrollLeft := a.target, snapRestoreTimer := some a.id }

/-- The snap-restore `setTimeout` callback scheduled by the animation
with token `id`: re-enable snap only if that animation is still the
current one. -/
def snapRestoreFire (id : ℕ) (s : SnapState) : SnapState :=
  if s.currentAnimationId = id then { s with snapEnabled := true, snapRestoreTimer := none }
  else { s with snapRestoreTimer := none }

/-- Run an interleaving of frame callbacks of two animations: an event
`(true, t)` is a frame of `a2` at time `t`, `(false, t)` one of `a1`. -/
def runFrames (a1 a2 : Anim) : List (Bool × ℕ) → SnapState → SnapState
  | [], s => s
  | (false, t) :: rest, s => runFrames a1 a2 rest (animFrame a1 t s)
  | (true, t) :: rest, s => runFrames a1 a2 rest (animFrame a2 t s)

/-- `firstAvailableIndex` from the virtualized `TimeSelector.tsx`: 0 when
the selected date is missing or not today; otherwise
`findIndex(slot => !isTimeSlotInPast(...))`, with the JS `-1` (not
found) and `0` results both mapped to 0 by `index > 0 ? index : 0`. -/
def firstAvailableIndex (now : JsDate) (selectedDate : Option JsDate)
    (timeSlots : List TimeSlot) : ℤ :=
  match selectedDate with
  | none => 0
  | some d =>
    if !(useIsToday now (some d)) then 0
    else
      let index : ℤ :=
        match timeSlots.findIdx? (fun slot => !(isTimeSlotInPast now d slot)) with
        | some k => (k : ℤ)
        | none => -1
      if 0 < index then index else 0

/-- `minScrollPosition` from `TimeSelector.tsx`: the pixel offset of the
first available slot. -/
def minScrollPosition (index : ℤ) (itemWidth gap : ℚ) : ℚ :=
  (index : ℚ) * (itemWidth + gap)

example : (calculateLayout timeSelectorConfig 500 300).containerWidth = 285 := by
  norm_num [calculateLayout, selectedTier, selectedHint, selectedReserved, timeSelectorConfig]

example : (calculateLayout timeSelectorConfig 500 99).containerWidth = 103 := by
  norm_num [calculateLayout, selectedTier, selectedHint, selectedReserved, timeSelectorConfig]

example : dragWrites ⟨5, 3/2⟩ (mouseDownState 0 100) [⟨10, some 90⟩] = [(⟨10, some 90⟩, 90)] := by
  norm_num [dragWrites, onMouseMove, mouseDownState, clampToMin]

example : dragWrites ⟨5, 3/2⟩ (mouseDownState 0 100) [⟨4, some 90⟩, ⟨10, none⟩, ⟨2, none⟩] =
    [(⟨10, none⟩, 85), (⟨2, none⟩, 97)] := by
  norm_num [dragWrites, onMouseMove, mouseDownState, clampToMin]

example :
    (animFrame (smoothScrollTo ⟨800⟩ ⟨0, 0, true, none⟩ 1000 5000).2 5400
      (smoothScrollTo ⟨800⟩ (smoothScrollTo ⟨800⟩ ⟨0, 0, true, none⟩ 1000 5000).1 0 5000).1).scrollLeft
      = 500 := by
  norm_num [animFrame, smoothScrollTo, easeInOutCubic]

example : firstAvailableIndex ⟨0, 36450000⟩ (some ⟨0, 0⟩) defaultSlots = 9 := by decide

/-- C5: `isTimeSlotInPast(date, slot)` is true exactly when the date-time
composed from the calendar day of `date` and the hours/minutes of the
slot is strictly before the clock reading `now`; in particular it is
false for every slot when the date is on a later calendar day than
today. -/
theorem isTimeSlotInPast_iff_before_now (now d : JsDate) (slot : TimeSlot) :
    (isTimeSlotInPast now d slot = true ↔
      jsBefore (setHoursMs d slot.hours slot.minutes) now) ∧
    (now.day < d.day → isTimeSlotInPast now d slot = false) := by
  constructor
  · exact decide_eq_true_iff
  · intro hfut
    simp only [isTimeSlotInPast, decide_eq_false_iff_not]
    unfold jsBefore setHoursMs
    dsimp only
    rintro (h1 | ⟨h2, _⟩) <;> omega

/-- Witness for C5 at a concrete input: the selected day (day 1) is after
today (day 0), and the 9:00 slot is reported as not in the past. -/
theorem isTimeSlotInPast_iff_before_now_witness :
    ((⟨0, 0⟩ : JsDate).day < (⟨1, 0⟩ : JsDate).day) ∧
    isTimeSlotInPast ⟨0, 0⟩ ⟨1, 0⟩ ⟨9, 0, "9:00 AM"⟩ = false :=
  ⟨by decide, (isTimeSlotInPast_iff_before_now ⟨0, 0⟩ ⟨1, 0⟩ ⟨9, 0, "9:00 AM"⟩).2 (by decide)⟩

/-- C6: after `handleDateSelect(date)` the state has `selectedDate = date`
and `selectedTime = null`, and `handleTimeSelect` never changes
`selectedDate`, so a selected time never outlives the date it was chosen
against. -/
theorem booking_date_select_clears_time (s : BookingState) (d : JsDate) (t : TimeSlot) :
    (handleDateSelect d s).selectedDate = some d ∧
    (handleDateSelect d s).selectedTime = none ∧
    (handleTimeSelect t s).selectedDate = s.selectedDate :=
  ⟨rfl, rfl, rfl⟩

/-- C7: `generateTimeSlots` returns normally exactly when the start hour
is in [0,23], the end hour is greater than the start hour and at most 24,
and the interval is in (0,60]; `generateDateRange` returns normally
exactly when `monthsAhead` is in [1,12]. -/
theorem generator_guards_iff :
    (∀ startHour endHour intervalMinutes : ℤ,
      exceptOk (generateTimeSlots startHour endHour intervalMinutes) = true ↔
        (0 ≤ startHour ∧ startHour < 24 ∧ startHour < endHour ∧ endHour ≤ 24 ∧
          0 < intervalMinutes ∧ intervalMinutes ≤ 60)) ∧
    (∀ (monthsAhead : ℤ) (today : CivilDate),
      exceptOk (generateDateRange monthsAhead today) = true ↔
        (1 ≤ monthsAhead ∧ monthsAhead ≤ 12)) := by
  constructor
  · intro s e i
    unfold generateTimeSlots
    split_ifs with h1 h2 h3 <;> simp [exceptOk] <;> omega
  · intro n today
    unfold generateDateRange
    split_ifs with h1 <;> simp [exceptOk] <;> omega

/-- C9: when the selected date is today and every slot is in the past,
`firstAvailableIndex` falls back to 0 and hence the minimum scroll
position is 0 (the clamp is disabled rather than pointing at the end of
the list). -/
theorem firstAvailableIndex_all_past_zero (now d : JsDate) (slots : List TimeSlot)
    (itemWidth gap : ℚ) (htoday : d.day = now.day)
    (hall : ∀ slot ∈ slots, isTimeSlotInPast now d slot = true) :
    firstAvailableIndex now (some d) slots = 0 ∧
    minScrollPosition (firstAvailableIndex now (some d) slots) itemWidth gap = 0 := by
  have hfind : slots.findIdx? (fun slot => !(isTimeSlotInPast now d slot)) = none :=
    List.findIdx?_eq_none_iff.mpr (fun slot hs => by simp [hall slot hs])
  have hidx : firstAvailableIndex now (some d) slots = 0 := by
    unfold firstAvailableIndex
    simp [useIsToday, isSameDayOpt, htoday, hfind]
  refine ⟨hidx, ?_⟩
  rw [hidx]
  simp [minScrollPosition]

/-- Witness for C9 at a concrete input: at 20:00 today every default slot
(8:00 to 19:45) is past, and the computed index and minimum scroll
position are 0. -/
theorem firstAvailableIndex_all_past_zero_witness :
    ((⟨0, 0⟩ : JsDate).day = (⟨0, 72000000⟩ : JsDate).day) ∧
    (∀ slot ∈ defaultSlots, isTimeSlotInPast ⟨0, 72000000⟩ ⟨0, 0⟩ slot = true) ∧
    firstAvailableIndex ⟨0, 72000000⟩ (some ⟨0, 0⟩) defaultSlots = 0 ∧
    minScrollPosition (firstAvailableIndex ⟨0, 72000000⟩ (some ⟨0, 0⟩) defaultSlots) 83 8 = 0 := by
  have h := firstAvailableIndex_all_past_zero ⟨0, 72000000⟩ ⟨0, 0⟩ defaultSlots 83 8
    (by decide) (by decide)
  exact ⟨by decide, by decide, h.1, h.2⟩

/-- C10: the initial booking state selects today (start of day) when some
default slot for today is not yet past at load time, and tomorrow (start
of day) otherwise; the initial selected time is always null. -/
theorem default_date_today_or_tomorrow (now : JsDate) :
    ((∃ slot ∈ defaultSlots, isTimeSlotInPast now (startOfDay now) slot = false) →
      getDefaultDate now = startOfDay now) ∧
    ((∀ slot ∈ defaultSlots, isTimeSlotInPast now (startOfDay now) slot = true) →
      getDefaultDate now = addDays (startOfDay now) 1) ∧
    (initialBookingState now).selectedTime = none := by
  refine ⟨?_, ?_, rfl⟩
  · rintro ⟨slot, hmem, hpast⟩
    unfold getDefaultDate
    rw [if_pos (List.any_eq_true.mpr ⟨slot, hmem, by simp [hpast]⟩)]
  · intro hall
    unfold getDefaultDate
    rw [if_neg ?_]
    simp only [Bool.not_eq_true]
    rw [List.any_eq_false]
    intro slot hs
    simp [hall slot hs]

/-- Witness for C10 at a concrete input: at midnight every default slot is
still available, so the default date is today. -/
theorem default_date_today_or_tomorrow_witness :
    (∃ slot ∈ defaultSlots, isTimeSlotInPast ⟨0, 0⟩ (startOfDay ⟨0, 0⟩) slot = false) ∧
    getDefaultDate ⟨0, 0⟩ = startOfDay ⟨0, 0⟩ :=
  ⟨by decide, (default_date_today_or_tomorrow ⟨0, 0⟩).1 (by decide)⟩

/-- Any offset `onMouseMove` writes is the clamped
`scrollLeftAtStart - (x - startX) * multiplier`. -/
theorem onMouseMove_write_eq (dragConfig : DragConfig) (s : DragState) (e : MouseMove)
    (v : ℚ) (hw : (onMouseMove dragConfig s e).2 = some v) :
    v = clampToMin e.minScroll (s.scrollLeft - (e.x - s.startX) * dragConfig.multiplier) := by
  unfold onMouseMove at hw
  by_cases h1 : s.isDown = true
  · by_cases h2 : (s.isDragging || decide (|e.x - s.startX| > dragConfig.threshold)) = true
    · simp [h1, h2] at hw
      exact hw.symm
    · simp [h1, h2] at hw
  · simp [h1] at hw

/-- The clamp never returns less than a supplied minimum. -/
theorem clampToMin_le (m v : ℚ) : m ≤ clampToMin (some m) v :=
  le_max_left m v

/-- C2: every drag-driven scroll write made while a minimum-scroll
boundary is supplied is at least the value of the boundary at the moment
of the write, whatever the sequence of mouse moves. -/
theorem drag_clamp_min (dragConfig : DragConfig) (s : DragState)
    (moves : List MouseMove) (e : MouseMove) (v m : ℚ)
    (hmem : (e, v) ∈ dragWrites dragConfig s moves) (hmin : e.minScroll = some m) :
    m ≤ v := by
  induction moves generalizing s with
  | nil => simp [dragWrites] at hmem
  | cons mv rest ih =>
    rw [dragWrites] at hmem
    rcases List.mem_append.mp hmem with hl | hr
    · rcases hopt : (onMouseMove dragConfig s mv).2 with _ | w
      · rw [hopt] at hl
        simp at hl
      · rw [hopt] at hl
        simp only [List.mem_singleton, Prod.mk.injEq] at hl
        have hw := onMouseMove_write_eq dragConfig s mv w hopt
        rw [hl.2, hw, ← hl.1, hmin]
        exact clampToMin_le _ _
    · exact ih _ hr

/-- Witness for C2 at a concrete input: dragging left past the boundary
(start x 0, move to x 10, boundary 90) writes exactly the boundary value
90 instead of the unclamped 85. -/
theorem drag_clamp_min_witness :
    ((⟨10, some 90⟩, (90 : ℚ)) ∈
      dragWrites ⟨5, 3/2⟩ (mouseDownState 0 100) [⟨10, some 90⟩]) ∧
    (90 : ℚ) ≤ 90 := by
  have hmem : (⟨10, some 90⟩, (90 : ℚ)) ∈
      dragWrites ⟨5, 3/2⟩ (mouseDownState 0 100) [⟨10, some 90⟩] := by
    norm_num [dragWrites, onMouseMove, mouseDownState, clampToMin]
  exact ⟨hmem,
    drag_clamp_min ⟨5, 3/2⟩ (mouseDownState 0 100) [⟨10, some 90⟩] ⟨10, some 90⟩ 90 90 hmem rfl⟩

/-- Once the drag is engaged, every move writes the clamped target
computed from the captured start position. -/
theorem dragWrites_engaged (dragConfig : DragConfig) (moves : List MouseMove)
    (s : DragState) (hdown : s.isDown = true) (hdrag : s.isDragging = true) :
    dragWrites dragConfig s moves = moves.map
      (fun e => (e, clampToMin e.minScroll
        (s.scrollLeft - (e.x - s.startX) * dragConfig.multiplier))) := by
  induction moves generalizing s with
  | nil => simp [dragWrites]
  | cons e rest ih =>
    have hstep : onMouseMove dragConfig s e =
        ({ s with isDragging := true },
          some (clampToMin e.minScroll
            (s.scrollLeft - (e.x - s.startX) * dragConfig.multiplier))) := by
      unfold onMouseMove
      rw [hdown]
      simp [hdrag]
    have hs : ({ s with isDragging := true } : DragState) = s := by
      cases s
      simp_all
    rw [dragWrites, hstep]
    dsimp only
    rw [hs, ih s hdown hdrag]
    rfl

/-- C8: in a drag session no move writes an offset while the distance
from the start x stays within the threshold; from the first move whose
distance exceeds the threshold onward, every move writes
`scrollLeftAtStart - (x - startX) * multiplier`, clamped to the optional
minimum. -/
theorem drag_threshold_engage_spec (dragConfig : DragConfig) (x0 scrollLeft0 : ℚ)
    (moves : List MouseMove) :
    dragWrites dragConfig (mouseDownState x0 scrollLeft0) moves =
      (moves.dropWhile (fun e => decide (|e.x - x0| ≤ dragConfig.threshold))).map
        (fun e => (e, clampToMin e.minScroll
          (scrollLeft0 - (e.x - x0) * dragConfig.multiplier))) := by
  induction moves with
  | nil => simp [dragWrites]
  | cons e rest ih =>
    by_cases hd : |e.x - x0| ≤ dragConfig.threshold
    · have hstep : onMouseMove dragConfig (mouseDownState x0 scrollLeft0) e =
          (mouseDownState x0 scrollLeft0, none) := by
        unfold onMouseMove mouseDownState
        simp [not_lt.mpr hd]
      rw [dragWrites, hstep]
      dsimp only
      rw [List.dropWhile_cons, if_pos (by simpa using hd)]
      simpa using ih
    · have hgt : dragConfig.threshold < |e.x - x0| := not_le.mp hd
      have hstep : onMouseMove dragConfig (mouseDownState x0 scrollLeft0) e =
          (⟨true, x0, scrollLeft0, true⟩,
            some (clampToMin e.minScroll
              (scrollLeft0 - (e.x - x0) * dragConfig.multiplier))) := by
        unfold onMouseMove mouseDownState
        simp [hgt]
      rw [dragWrites, hstep]
      dsimp only
      rw [List.dropWhile_cons, if_neg (by simpa using hd)]
      rw [dragWrites_engaged dragConfig rest ⟨true, x0, scrollLeft0, true⟩ rfl rfl]
      rfl

/-- Arithmetic core of the layout bound: with a positive item width, a
nonnegative gap and room for one item plus reserved space and hint, the
floored-at-one item count is the floor itself, and the packed width stays
within wrapper minus reserved plus the one-pixel rounding tolerance. -/
theorem layout_core (w g hint res totalWidth : ℚ) (hw : 0 < w) (hg : 0 ≤ g)
    (hfit : w + res + hint ≤ totalWidth) :
    max 1 ⌊(totalWidth - res - hint + g + 1) / (w + g)⌋ =
      ⌊(totalWidth - res - hint + g + 1) / (w + g)⌋ ∧
    ((⌊(totalWidth - res - hint + g + 1) / (w + g)⌋ : ℚ) * w +
      ((⌊(totalWidth - res - hint + g + 1) / (w + g)⌋ - 1 : ℤ) : ℚ) * g + hint ≤
      totalWidth - res + 1) := by
  have hwg : (0 : ℚ) < w + g := by linarith
  have h1 : (1 : ℤ) ≤ ⌊(totalWidth - res - hint + g + 1) / (w + g)⌋ := by
    apply Int.le_floor.mpr
    rw [le_div_iff₀ hwg]
    push_cast
    linarith
  refine ⟨max_eq_right h1, ?_⟩
  have h2 : ((⌊(totalWidth - res - hint + g + 1) / (w + g)⌋ : ℚ)) ≤
      (totalWidth - res - hint + g + 1) / (w + g) := Int.floor_le _
  have h3 : ((⌊(totalWidth - res - hint + g + 1) / (w + g)⌋ : ℚ)) * (w + g) ≤
      totalWidth - res - hint + g + 1 := by
    calc ((⌊(totalWidth - res - hint + g + 1) / (w + g)⌋ : ℚ)) * (w + g) ≤
        ((totalWidth - res - hint + g + 1) / (w + g)) * (w + g) :=
          mul_le_mul_of_nonneg_right h2 (le_of_lt hwg)
      _ = totalWidth - res - hint + g + 1 := div_mul_cancel₀ _ (ne_of_gt hwg)
  push_cast
  nlinarith [h3]

/-- C3 (amended): when the wrapper is at least one item width plus the
reserved space plus the hint width of the current tier, the computed
container width packs a whole number of at least one item
(`n * width + (n - 1) * gap + hint`) and never exceeds the wrapper width
minus the reserved space by more than the 1px sub-pixel tolerance the
source deliberately adds. -/
theorem layout_fits_whole_items (config : ScrollLayoutConfig) (innerWidth totalWidth : ℚ)
    (hw : 0 < (selectedTier config innerWidth).width)
    (hg : 0 ≤ (selectedTier config innerWidth).gap)
    (hfit : (selectedTier config innerWidth).width + selectedReserved config innerWidth +
      selectedHint config innerWidth ≤ totalWidth) :
    ∃ n : ℤ, 1 ≤ n ∧
      (calculateLayout config innerWidth totalWidth).containerWidth =
        (n : ℚ) * (selectedTier config innerWidth).width +
          ((n - 1 : ℤ) : ℚ) * (selectedTier config innerWidth).gap +
          selectedHint config innerWidth ∧
      (calculateLayout config innerWidth totalWidth).containerWidth ≤
        totalWidth - selectedReserved config innerWidth + 1 := by
  obtain ⟨hmax, hbound⟩ := layout_core (selectedTier config innerWidth).width
    (selectedTier config innerWidth).gap (selectedHint config innerWidth)
    (selectedReserved config innerWidth) totalWidth hw hg hfit
  refine ⟨⌊(totalWidth - selectedReserved config innerWidth - selectedHint config innerWidth +
      (selectedTier config innerWidth).gap + 1) /
      ((selectedTier config innerWidth).width + (selectedTier config innerWidth).gap)⌋,
    ?_, ?_, ?_⟩
  · rw [← hmax]
    exact le_max_left _ _
  · show (max 1 _ : ℤ) * (selectedTier config innerWidth).width +
      ((max 1 _ - 1 : ℤ) : ℚ) * (selectedTier config innerWidth).gap +
      selectedHint config innerWidth = _
    rw [hmax]
  · show (max 1 _ : ℤ) * (selectedTier config innerWidth).width +
      ((max 1 _ - 1 : ℤ) : ℚ) * (selectedTier config innerWidth).gap +
      selectedHint config innerWidth ≤ _
    rw [hmax]
    exact hbound

/-- Witness for C3 at a concrete input: TimeSelector config at viewport
500 and wrapper 300 (base tier: item 83, gap 8, reserved 16, hint 20)
packs 3 items into a container of width 285 = 300 - 16 + 1. -/
theorem layout_fits_whole_items_witness :
    (0 < (selectedTier timeSelectorConfig 500).width) ∧
    (0 ≤ (selectedTier timeSelectorConfig 500).gap) ∧
    ((selectedTier timeSelectorConfig 500).width + selectedReserved timeSelectorConfig 500 +
      selectedHint timeSelectorConfig 500 ≤ 300) ∧
    (∃ n : ℤ, 1 ≤ n ∧
      (calculateLayout timeSelectorConfig 500 300).containerWidth =
        (n : ℚ) * (selectedTier timeSelectorConfig 500).width +
          ((n - 1 : ℤ) : ℚ) * (selectedTier timeSelectorConfig 500).gap +
          selectedHint timeSelectorConfig 500 ∧
      (calculateLayout timeSelectorConfig 500 300).containerWidth ≤
        300 - selectedReserved timeSelectorConfig 500 + 1) := by
  refine ⟨?_, ?_, ?_, layout_fits_whole_items timeSelectorConfig 500 300 ?_ ?_ ?_⟩ <;>
    norm_num [selectedTier, selectedReserved, selectedHint, timeSelectorConfig]

/-- C3 counterexample: with the TimeSelector config at viewport width 500
(base tier: item width 83, reserved 16, hint 20) and wrapper width 99,
the wrapper does hold one item plus the reserved space (83 + 16 ≤ 99),
yet the computed container width is 103, which exceeds wrapper minus
reserved (99 - 16 = 83); the claim as stated therefore fails. -/
theorem layout_exceeds_wrapper_minus_reserved :
    (selectedTier timeSelectorConfig 500).width +
      selectedReserved timeSelectorConfig 500 ≤ 99 ∧
    (calculateLayout timeSelectorConfig 500 99).containerWidth = 103 ∧
    ¬((calculateLayout timeSelectorConfig 500 99).containerWidth ≤
        99 - selectedReserved timeSelectorConfig 500) := by
  norm_num [calculateLayout, selectedTier, selectedHint, selectedReserved, timeSelectorConfig]

/-- Strict (hours, minutes) ordering of time slots. -/
def slotLt (a b : TimeSlot) : Prop :=
  a.hours < b.hours ∨ (a.hours = b.hours ∧ a.minutes < b.minutes)

/-- Pairwise order transfers to a flat map whose blocks are internally
ordered and pairwise cross-ordered. -/
theorem pairwise_flatMap_of {α β : Type} (R : β → β → Prop) (f : α → List β)
    (l : List α) (hin : ∀ a ∈ l, (f a).Pairwise R)
    (hcross : l.Pairwise (fun a b => ∀ x ∈ f a, ∀ y ∈ f b, R x y)) :
    (l.flatMap f).Pairwise R := by
  induction l with
  | nil => simp
  | cons a t ih =>
    rw [List.flatMap_cons, List.pairwise_append]
    obtain ⟨hhead, htail⟩ := List.pairwise_cons.mp hcross
    refine ⟨hin a (by simp), ih (fun b hb => hin b (by simp [hb])) htail, ?_⟩
    intro x hx y hy
    obtain ⟨b, hb, hyb⟩ := List.mem_flatMap.mp hy
    exact hhead b hb x hx y hyb

/-- The minute loop emits strictly increasing minutes. -/
theorem minuteSeq_pairwise (i : ℕ) (hi : 0 < i) :
    List.Pairwise (· < ·) (minuteSeq i) :=
  List.Pairwise.map _ (fun _ _ h => mul_lt_mul_of_pos_right h hi)
    (List.pairwise_lt_range _)

/-- The minute loop runs `59 / i + 1` times. -/
theorem minuteSeq_length (i : ℕ) : (minuteSeq i).length = 59 / i + 1 := by
  simp [minuteSeq]

/-- When the interval divides the hour, the loop count times the interval
is exactly 60. -/
theorem minuteSeq_count_of_dvd (it q : ℕ) (hpos : 0 < it) (hq : 60 = it * q) :
    (59 / it + 1) * it = 60 := by
  have h0 : 0 < q := by
    rcases Nat.eq_zero_or_pos q with h | h
    · subst h; simp at hq
    · exact h
  obtain ⟨p, rfl⟩ : ∃ p, q = p + 1 := ⟨q - 1, by omega⟩
  have hexp : it * (p + 1) = it * p + it := by ring
  have hexp2 : (p + 1) * it = it * p + it := by ring
  have hexp3 : p * it = it * p := by ring
  have hdiv : 59 / it = p := by
    apply Nat.div_eq_of_lt_le <;> omega
  rw [hdiv]
  omega

/-- C4 (amended): for all valid parameters `generateTimeSlots` succeeds
with slots in strictly increasing (hours, minutes) order; the count is
`(endHour - startHour)` times the per-hour loop count
`floor(59 / interval) + 1` (the ceiling of `60 / interval`), which agrees
with the spec formula `(endHour - startHour) * 60 / interval` exactly
when the interval divides 60. -/
theorem generateTimeSlots_sorted_count (startHour endHour intervalMinutes : ℤ)
    (h1 : 0 ≤ startHour) (h2 : startHour < 24) (h3 : startHour < endHour)
    (h4 : endHour ≤ 24) (h5 : 0 < intervalMinutes) (h6 : intervalMinutes ≤ 60) :
    ∃ slots, generateTimeSlots startHour endHour intervalMinutes = .ok slots ∧
      slots.Pairwise slotLt ∧
      slots.length = (endHour - startHour).toNat * (59 / intervalMinutes.toNat + 1) ∧
      (intervalMinutes ∣ 60 →
        (slots.length : ℤ) * intervalMinutes = (endHour - startHour) * 60) := by
  have hit : 0 < intervalMinutes.toNat := by omega
  have hlen : (((List.range (endHour - startHour).toNat).map
        (fun k => startHour.toNat + k)).flatMap
      (fun h => (minuteSeq intervalMinutes.toNat).map
        (fun m => (⟨h, m, formatLabel h m⟩ : TimeSlot)))).length =
      (endHour - startHour).toNat * (59 / intervalMinutes.toNat + 1) := by
    rw [List.length_flatMap, List.map_map]
    have hconst : (List.length ∘ fun h => (minuteSeq intervalMinutes.toNat).map
          (fun m => (⟨h, m, formatLabel h m⟩ : TimeSlot))) ∘ (fun k => startHour.toNat + k) =
        fun _ => 59 / intervalMinutes.toNat + 1 := by
      funext k
      simp [minuteSeq_length]
    rw [hconst, List.map_const', List.length_range, List.sum_replicate, smul_eq_mul]
  refine ⟨((List.range (endHour - startHour).toNat).map (fun k => startHour.toNat + k)).flatMap
      (fun h => (minuteSeq intervalMinutes.toNat).map
        (fun m => (⟨h, m, formatLabel h m⟩ : TimeSlot))), ?_, ?_, hlen, ?_⟩
  · unfold generateTimeSlots
    rw [if_neg (by omega), if_neg (by omega), if_neg (by omega)]
  · apply pairwise_flatMap_of
    · intro h hmem
      exact List.Pairwise.map _ (fun m1 m2 hm => Or.inr ⟨rfl, hm⟩)
        (minuteSeq_pairwise _ hit)
    · apply List.Pairwise.imp ?_
        (List.Pairwise.map (fun k => startHour.toNat + k)
          (fun a b h => Nat.add_lt_add_left h _) (List.pairwise_lt_range _))
      intro a b hab x hx y hy
      obtain ⟨m1, _, rfl⟩ := List.mem_map.mp hx
      obtain ⟨m2, _, rfl⟩ := List.mem_map.mp hy
      exact Or.inl hab
  · intro hdvd
    obtain ⟨c, hc⟩ := hdvd
    have hc0 : 0 < c := by nlinarith
    have hq : 60 = intervalMinutes.toNat * c.toNat := by
      have hcast : ((intervalMinutes.toNat * c.toNat : ℕ) : ℤ) = 60 := by
        push_cast
        rw [Int.toNat_of_nonneg (le_of_lt h5), Int.toNat_of_nonneg (le_of_lt hc0)]
        linarith [hc]
      omega
    have hmul := minuteSeq_count_of_dvd intervalMinutes.toNat c.toNat hit hq
    rw [hlen]
    have he' : (((endHour - startHour).toNat : ℤ)) = endHour - startHour :=
      Int.toNat_of_nonneg (by omega)
    have h59 : ((59 / intervalMinutes.toNat + 1 : ℕ) : ℤ) * intervalMinutes = 60 := by
      calc ((59 / intervalMinutes.toNat + 1 : ℕ) : ℤ) * intervalMinutes
          = ((59 / intervalMinutes.toNat + 1 : ℕ) : ℤ) * ((intervalMinutes.toNat : ℤ)) := by
            rw [Int.toNat_of_nonneg (le_of_lt h5)]
        _ = (((59 / intervalMinutes.toNat + 1) * intervalMinutes.toNat : ℕ) : ℤ) := by
            push_cast
            ring
        _ = ((60 : ℕ) : ℤ) := by rw [hmul]
        _ = 60 := by norm_num
    calc (((endHour - startHour).toNat * (59 / intervalMinutes.toNat + 1) : ℕ) : ℤ) *
          intervalMinutes
        = ((endHour - startHour).toNat : ℤ) *
            (((59 / intervalMinutes.toNat + 1 : ℕ) : ℤ) * intervalMinutes) := by
          push_cast
          ring
      _ = (endHour - startHour) * 60 := by rw [h59, he']

/-- Witness for C4 at the default parameters (8, 20, 15): 48 slots in
strictly increasing order, and 48 * 15 = 12 * 60. -/
theorem generateTimeSlots_sorted_count_witness :
    (0 ≤ (8 : ℤ)) ∧ ((8 : ℤ) < 24) ∧ ((8 : ℤ) < 20) ∧ ((20 : ℤ) ≤ 24) ∧
    (0 < (15 : ℤ)) ∧ ((15 : ℤ) ≤ 60) ∧
    (∃ slots, generateTimeSlots 8 20 15 = .ok slots ∧
      slots.Pairwise slotLt ∧
      slots.length = ((20 : ℤ) - 8).toNat * (59 / (15 : ℤ).toNat + 1) ∧
      ((15 : ℤ) ∣ 60 →
        (slots.length : ℤ) * 15 = ((20 : ℤ) - 8) * 60)) :=
  ⟨by decide, by decide, by decide, by decide, by decide, by decide,
    generateTimeSlots_sorted_count 8 20 15 (by decide) (by decide) (by decide)
      (by decide) (by decide) (by decide)⟩

/-- C4 counterexample: interval 7 is within the valid domain (0, 60] but
does not divide 60; one hour then yields 9 slots (minutes 0, 7, …, 56),
while the spec count formula gives (9 - 8) * 60 / 7, and 9 is not
60 / 7. -/
theorem generateTimeSlots_count_formula_fails :
    (generateTimeSlots 8 9 7).map List.length = .ok 9 ∧
    (9 : ℚ) ≠ ((9 : ℚ) - 8) * 60 / 7 := by
  constructor
  · rfl
  · norm_num

/-- A frame whose animation token has been superseded is a no-op. -/
theorem animFrame_of_ne (a : Anim) (t : ℕ) (s : SnapState)
    (h : s.currentAnimationId ≠ a.id) : animFrame a t s = s := by
  unfold animFrame
  rw [if_pos h]

/-- A frame never changes the current animation token. -/
theorem animFrame_id (a : Anim) (t : ℕ) (s : SnapState) :
    (animFrame a t s).currentAnimationId = s.currentAnimationId := by
  unfold animFrame
  split_ifs <;> rfl

/-- Running frames never changes the current animation token. -/
theorem runFrames_id (a1 a2 : Anim) (evs : List (Bool × ℕ)) (s : SnapState) :
    (runFrames a1 a2 evs s).currentAnimationId = s.currentAnimationId := by
  induction evs generalizing s with
  | nil => rfl
  | cons e rest ih =>
    obtain ⟨which, t⟩ := e
    cases which <;> rw [runFrames, ih, animFrame_id]

/-- While the second animation owns the token, frames of a superseded
animation drop out of any interleaving. -/
theorem runFrames_filter (a1 a2 : Anim) (hne : a1.id ≠ a2.id)
    (evs : List (Bool × ℕ)) (s : SnapState)
    (hcur : s.currentAnimationId = a2.id) :
    runFrames a1 a2 evs s = runFrames a1 a2 (evs.filter (fun e => e.1)) s := by
  induction evs generalizing s with
  | nil => rfl
  | cons e rest ih =>
    obtain ⟨which, t⟩ := e
    cases which with
    | false =>
      rw [runFrames,
        animFrame_of_ne a1 t s (by rw [hcur]; exact fun hh => hne hh.symm)]
      simpa [List.filter_cons] using ih s hcur
    | true =>
      rw [runFrames]
      have hfil : List.filter (fun e => e.1) ((true, t) :: rest) =
          (true, t) :: List.filter (fun e => e.1) rest := by
        simp [List.filter_cons]
      rw [hfil, runFrames]
      exact ih _ (by rw [animFrame_id]; exact hcur)

/-- A frame of the owning animation run at or after its deadline writes
the exact target. -/
theorem animFrame_complete (a : Anim) (tEnd : ℕ) (s : SnapState)
    (hcur : s.currentAnimationId = a.id) (hd : 0 < a.duration)
    (ht : a.id + a.duration ≤ tEnd) :
    (animFrame a tEnd s).scrollLeft = a.target := by
  unfold animFrame
  rw [if_neg (by simp [hcur])]
  have hdq : (0 : ℚ) < (a.duration : ℚ) := by exact_mod_cast hd
  have h1 : (1 : ℚ) ≤ ((tEnd - a.id : ℕ) : ℚ) / (a.duration : ℚ) := by
    rw [one_le_div hdq]
    exact_mod_cast (by omega : a.duration ≤ tEnd - a.id)
  rw [min_eq_right h1, if_neg (lt_irrefl 1)]

/-- C1 (amended): when a second smooth `scrollTo` starts before the first
animation completes and the two calls observe distinct `Date.now()`
millisecond readings, the remaining frame callbacks of the first
animation are no-ops (any interleaving of frames equals the run of the
second animation frames alone, so the position is determined only by the
second call), and a frame of the second animation at or after its
deadline leaves the container scroll offset exactly at the second target. -/
theorem snap_second_call_supersedes (options : SnapConfig) (s0 : SnapState)
    (t1 t2 : ℚ) (n1 n2 : ℕ) (mid : List ℕ) (evs : List (Bool × ℕ)) (tEnd : ℕ)
    (a1 : Anim) (s2 : SnapState) (a2 : Anim)
    (hne : n1 ≠ n2) (hdur : 0 < options.scrollDuration)
    (ha1 : a1 = (smoothScrollTo options s0 t1 n1).2)
    (hs2 : s2 = (smoothScrollTo options
      (mid.foldl (fun s t => animFrame a1 t s) (smoothScrollTo options s0 t1 n1).1) t2 n2).1)
    (ha2 : a2 = (smoothScrollTo options
      (mid.foldl (fun s t => animFrame a1 t s) (smoothScrollTo options s0 t1 n1).1) t2 n2).2) :
    runFrames a1 a2 evs s2 = runFrames a1 a2 (evs.filter (fun e => e.1)) s2 ∧
    (n2 + a2.duration ≤ tEnd →
      (animFrame a2 tEnd (runFrames a1 a2 evs s2)).scrollLeft = t2) := by
  have ha1id : a1.id = n1 := by rw [ha1]; rfl
  have ha2id : a2.id = n2 := by rw [ha2]; rfl
  have hs2id : s2.currentAnimationId = n2 := by rw [hs2]; rfl
  have hne' : a1.id ≠ a2.id := by rw [ha1id, ha2id]; exact hne
  have hcur : s2.currentAnimationId = a2.id := by rw [hs2id, ha2id]
  refine ⟨runFrames_filter a1 a2 hne' evs s2 hcur, ?_⟩
  intro hEnd
  have htarget : a2.target = t2 := by rw [ha2]; rfl
  have hdur2 : 0 < a2.duration := by
    rw [ha2]
    unfold smoothScrollTo
    dsimp only
    split_ifs <;> omega
  rw [← htarget]
  exact animFrame_complete a2 tEnd _ (by rw [runFrames_id]; exact hcur) hdur2
    (by rw [ha2id]; exact hEnd)

/-- Witness for C1 at a concrete trace: first smooth call to 1000 at ms
1000, second smooth call to 600 at ms 1200 (distinct tokens); after an
interleaving of one stale first-animation frame and one second-animation
frame, the completion frame at ms 2000 rests exactly at 600. -/
theorem snap_second_call_supersedes_witness :
    (1000 : ℕ) ≠ 1200 ∧
    (animFrame
        (smoothScrollTo ⟨800⟩ (List.foldl
          (fun s t => animFrame (smoothScrollTo ⟨800⟩ ⟨0, 0, true, none⟩ 1000 1000).2 t s)
          (smoothScrollTo ⟨800⟩ ⟨0, 0, true, none⟩ 1000 1000).1 []) 600 1200).2
        2000
        (runFrames (smoothScrollTo ⟨800⟩ ⟨0, 0, true, none⟩ 1000 1000).2
          (smoothScrollTo ⟨800⟩ (List.foldl
            (fun s t => animFrame (smoothScrollTo ⟨800⟩ ⟨0, 0, true, none⟩ 1000 1000).2 t s)
            (smoothScrollTo ⟨800⟩ ⟨0, 0, true, none⟩ 1000 1000).1 []) 600 1200).2
          [(false, 1600), (true, 1400)]
          (smoothScrollTo ⟨800⟩ (List.foldl
            (fun s t => animFrame (smoothScrollTo ⟨800⟩ ⟨0, 0, true, none⟩ 1000 1000).2 t s)
            (smoothScrollTo ⟨800⟩ ⟨0, 0, true, none⟩ 1000 1000).1 []) 600 1200).1)).scrollLeft
      = 600 := by
  refine ⟨by decide, ?_⟩
  have h := snap_second_call_supersedes ⟨800⟩ ⟨0, 0, true, none⟩ 1000 600 1000 1200 []
    [(false, 1600), (true, 1400)] 2000
    ((smoothScrollTo ⟨800⟩ ⟨0, 0, true, none⟩ 1000 1000).2)
    ((smoothScrollTo ⟨800⟩ (List.foldl
      (fun s t => animFrame (smoothScrollTo ⟨800⟩ ⟨0, 0, true, none⟩ 1000 1000).2 t s)
      (smoothScrollTo ⟨800⟩ ⟨0, 0, true, none⟩ 1000 1000).1 []) 600 1200).1)
    ((smoothScrollTo ⟨800⟩ (List.foldl
      (fun s t => animFrame (smoothScrollTo ⟨800⟩ ⟨0, 0, true, none⟩ 1000 1000).2 t s)
      (smoothScrollTo ⟨800⟩ ⟨0, 0, true, none⟩ 1000 1000).1 []) 600 1200).2)
    (by decide) (by decide) rfl rfl rfl
  exact h.2 (by norm_num [smoothScrollTo])

/-- C1 counterexample: two smooth calls in the same millisecond (both
read `Date.now() = 5000`) receive equal animation tokens, so the first
animation is not cancelled: after the second call (target 0) a leftover
frame of the first animation (target 1000) still writes offset 500,
moving the container away from the second target — its frame callbacks
are not no-ops as the claim states for every pair of calls. -/
theorem snap_same_millisecond_not_cancelled :
    (animFrame (smoothScrollTo ⟨800⟩ ⟨0, 0, true, none⟩ 1000 5000).2 5400
      (smoothScrollTo ⟨800⟩
        (smoothScrollTo ⟨800⟩ ⟨0, 0, true, none⟩ 1000 5000).1 0 5000).1).scrollLeft = 500 ∧
    (smoothScrollTo ⟨800⟩
      (smoothScrollTo ⟨800⟩ ⟨0, 0, true, none⟩ 1000 5000).1 0 5000).1.scrollLeft = 0 ∧
    (smoothScrollTo ⟨800⟩
      (smoothScrollTo ⟨800⟩ ⟨0, 0, true, none⟩ 1000 5000).1 0 5000).2.target = 0 ∧
    (500 : ℚ) ≠ 0 := by
  refine ⟨?_, by norm_num [smoothScrollTo], by norm_num [smoothScrollTo], by norm_num⟩
  norm_num [animFrame, smoothScrollTo, easeInOutCubic]

/-- Witness for C7 at concrete inputs: the default slot parameters and a
3-month range succeed; an empty hour range and a 0-month range throw. -/
theorem generator_guards_iff_witness :
    exceptOk (generateTimeSlots 8 20 15) = true ∧
    exceptOk (generateTimeSlots 8 8 15) = false ∧
    exceptOk (generateDateRange 3 ⟨2025, 10, 11⟩) = true ∧
    exceptOk (generateDateRange 0 ⟨2025, 10, 11⟩) = false :=
  ⟨(generator_guards_iff.1 8 20 15).mpr (by decide), by decide,
    (generator_guards_iff.2 3 ⟨2025, 10, 11⟩).mpr (by decide), by decide⟩

example : (defaultSlots.length = 48) := by decide

example : getDefaultDate ⟨0, 0⟩ = ⟨0, 0⟩ := by decide

example : getDefaultDate ⟨0, 72000000⟩ = ⟨1, 0⟩ := by decide

example : (generateDateRange 1 ⟨2025, 10, 11⟩).map List.length = .ok 32 := rfl

example : defaultSlots.head? = some ⟨8, 0, "8:00 AM"⟩ := by decide

example : isTimeSlotSelected ⟨9, 30, "9:30 AM"⟩ (some ⟨9, 30, "9:30 AM"⟩) = true := by decide
